import Mathlib

/-!
Shallow embedding of the axios-enhance request-orchestration layer
(src/index.js; the file holds a JavaScript variant and a TypeScript variant
of the same MAxios class).

Modelling choices:
- The singleton state (requestMap, responseCacheMap) is passed explicitly as
  an MState value.  The two JavaScript Maps are modelled as association lists;
  Map.set appends a fresh entry when the key is absent and replaces the value
  in place otherwise.
- A cancellation handle (the function produced by new axios.CancelToken) is
  identified by a fresh natural number allocated from MState.nextToken.
  Invoking a handle is recorded in MState.cancelled together with the
  structured argument removeReq passes to it; axios rejects the corresponding
  in-flight request with that payload when, and only when, the handle fires
  before the request settles.
- The transport (the axios adapter) is an oracle of type
  Nat -> Config -> TResult, indexed by the number of previous transport
  dispatches, so that a run can be examined against transports that always
  fail, always succeed, and so on.  MState.transportCalls counts dispatches
  and MState.delays logs every retry delay as it is scheduled.
- The user-supplied duplicatedKey function receives the descriptor, so the
  descriptor record is split: ConfigBase holds the data fields and Config
  additionally holds the optional duplicatedKey function over ConfigBase
  (a function over the full record would be a non-positive occurrence).
- Promises are interpreted by direct state passing: a request runs its
  request interceptor, dispatches the transport, and settles through the
  response interceptor, recursing through MAxios.retry on failure.  The
  two-request dedup scenario is modelled by backToBack, which performs the
  interleaving the spec describes for back-to-back duplicate requests.
-/

namespace AxiosEnhance

/-- retryDelay is either a number of milliseconds or a function of the attempt
number; src/index.js tests it with isFunction at lines 96-98. -/
inductive RetryDelay where
  | num (n : Nat)
  | fn (f : Nat → Nat)

/-- The orchestration-relevant fields of a request descriptor, mirroring
defaultConfig of the JavaScript variant (src/index.js lines 3-12).  The
mutable retry counter field is absent until MAxios.retry first writes it,
matching the expression config.__retryCount || 0. -/
structure ConfigBase where
  method : String := "GET"
  url : String := ""
  cancelDuplicated : Bool := false
  retry : Nat := 0
  retryDelay : RetryDelay := RetryDelay.num 200
  retryDelayRise : Bool := true
  timeout : Int := -1
  cache : Bool := false
  __retryCount : Option Nat := none

/-- A full descriptor also carries the optional user duplicatedKey function.
It is kept beside ConfigBase so that the function can take the descriptor
data as its argument.  The JavaScript defaultConfig sets duplicatedKey to the
empty string, which fails the isFunction guard, hence the none default. -/
structure Config extends ConfigBase where
  duplicatedKey : Option (ConfigBase → String) := none

/-- toLocaleLowerCase as used on the ASCII method strings, written over the
character list so that it evaluates inside the kernel. -/
def toLowerStr (s : String) : String := ⟨s.data.map Char.toLower⟩

/-- Embeds MAxios.getDuplicatedKey, JavaScript variant (src/index.js lines
30-37): consult a supplied duplicatedKey function first; an empty result, or
no function, falls back to lowercase(method) concatenated with url. -/
def getDuplicatedKey (config : Config) : String :=
  let customKey :=
    match config.duplicatedKey with
    | some f => f config.toConfigBase
    | none => ""
  if customKey = "" then toLowerStr config.method ++ config.url else customKey

/-- The structured argument removeReq passes to a cancellation handle
(src/index.js lines 68-71). -/
structure CancelErr where
  type : String
  message : String
deriving DecidableEq

/-- ERROR_TYPE.Cancel (src/index.js lines 14-16). -/
def ERROR_TYPE_Cancel : String := "cancelDuplicated"

/-- The exact payload removeReq cancels with. -/
def requestCanceledError : CancelErr :=
  { type := ERROR_TYPE_Cancel, message := "Request canceled " }

/-- Association-list lookup, the model of Map.has / Map.get. -/
def mlookup (k : String) : List (String × α) → Option α
  | [] => none
  | (k2, v) :: rest => if k2 = k then some v else mlookup k rest

/-- Association-list removal of the entry for a key, the model of Map.delete
(at most one entry per key ever exists in a Map). -/
def merase (k : String) : List (String × α) → List (String × α)
  | [] => []
  | (k2, v) :: rest => if k2 = k then rest else (k2, v) :: merase k rest

/-- Association-list write, the model of Map.set: replace in place when the
key is present, append otherwise. -/
def mset (k : String) (v : α) : List (String × α) → List (String × α)
  | [] => [(k, v)]
  | (k2, v2) :: rest => if k2 = k then (k2, v) :: rest else (k2, v2) :: mset k v rest

/-- The MAxios singleton state plus instrumentation.  requestMap and
responseCacheMap are the two Maps of the class (src/index.js lines 23-24);
cancelled logs every invocation of a stored cancellation handle together with
its argument; nextToken allocates fresh handle identities; transportCalls
counts transport dispatches; delays logs scheduled retry delays. -/
structure MState (ρ : Type) where
  requestMap : List (String × Nat) := []
  responseCacheMap : List (String × ρ) := []
  cancelled : List (Nat × CancelErr) := []
  nextToken : Nat := 0
  transportCalls : Nat := 0
  delays : List Nat := []

variable {ρ ε : Type}

/-- Result of one transport dispatch: the adapter either fulfills with a
response or rejects with a transport error (which axios hands to the response
interceptor with error.config set to the request descriptor). -/
inductive TResult (ρ ε : Type) where
  | success (r : ρ)
  | failure (e : ε)

/-- How a request future finally settles for the caller. -/
inductive Outcome (ρ ε : Type) where
  | resolved (r : ρ)
  | canceled (e : CancelErr)
  | rejected (e : ε)

/-- Embeds MAxios.addReq (src/index.js lines 41-52): nothing happens unless
cancelDuplicated is set; a cancellation handle is stored under the key only
when no entry currently exists for it. -/
def addReq (config : Config) (st : MState ρ) : MState ρ :=
  if !config.cancelDuplicated then st
  else
    let key := getDuplicatedKey config
    if (mlookup key st.requestMap).isSome then st
    else
      { st with
          requestMap := st.requestMap ++ [(key, st.nextToken)],
          nextToken := st.nextToken + 1 }

/-- Embeds MAxios.removeReq (src/index.js lines 56-75): nothing happens unless
cancelDuplicated is set and an entry exists; otherwise the entry is deleted
and its cancellation handle is invoked with the structured Cancel payload. -/
def removeReq (config : Config) (st : MState ρ) : MState ρ :=
  if !config.cancelDuplicated then st
  else
    let key := getDuplicatedKey config
    match mlookup key st.requestMap with
    | none => st
    | some cancelHandle =>
        { st with
            requestMap := merase key st.requestMap,
            cancelled := st.cancelled ++ [(cancelHandle, requestCanceledError)] }

/-- Embeds MAxios.getResponseCache (src/index.js lines 114-120): has then get,
null on a miss. -/
def getResponseCache (config : Config) (st : MState ρ) : Option ρ :=
  mlookup (getDuplicatedKey config) st.responseCacheMap

/-- Embeds MAxios.setResponseCache (src/index.js lines 126-132): stores the
response under the derived key only when the descriptor opts into caching. -/
def setResponseCache (config : Config) (response : ρ) (st : MState ρ) : MState ρ :=
  if !config.cache then st
  else
    { st with
        responseCacheMap := mset (getDuplicatedKey config) response st.responseCacheMap }

/-- The fulfilled branch of the request interceptor (src/index.js lines
145-152): removeReq then addReq, and the descriptor continues to the
transport. -/
def requestHook (config : Config) (st : MState ρ) : MState ρ :=
  addReq config (removeReq config st)

/-- One transport dispatch, counted. -/
def dispatch (st : MState ρ) : MState ρ :=
  { st with transportCalls := st.transportCalls + 1 }

/-- The fulfilled branch of the response interceptor (src/index.js lines
165-170): removeReq on the response descriptor, then setResponseCache, then
the response flows to the caller. -/
def interceptorsResponseSuccess (config : Config) (resp : ρ) (st : MState ρ) :
    MState ρ × Outcome ρ ε :=
  let st2 := removeReq config st
  let st3 := setResponseCache config resp st2
  (st3, Outcome.resolved resp)

/-- An error reaching the rejected branch of the response interceptor: either
an axios cancellation (isCancel is true; an axios Cancel value carries only
the payload passed to the cancel function, no config) or a transport failure
carrying the request descriptor as error.config. -/
inductive AxiosError (ε : Type) where
  | cancel (m : CancelErr)
  | transportFail (config : Config) (e : ε)

/-- What the rejected branch of the response interceptor decides to do. -/
inductive ErrorAction (ε : Type) where
  | rejectCancel (m : CancelErr)
  | retryWith (config : Config) (e : ε)
  | rejectErr (e : ε)

/-- Embeds the rejected branch of interceptorsResponse (src/index.js lines
171-186).  For a cancellation, error.config is undefined, so removeReq
receives an empty object and its key derivation throws inside the removeReq
try/catch: the state is unchanged and the branch rejects with error.message
(the structured Cancel payload) without ever reaching the retry check.  For a
transport failure, removeReq runs on the request descriptor and retry is
delegated exactly when config.retry is positive. -/
def interceptorsResponseError (st : MState ρ) (error : AxiosError ε) :
    MState ρ × ErrorAction ε :=
  match error with
  | AxiosError.cancel m => (st, ErrorAction.rejectCancel m)
  | AxiosError.transportFail config e =>
      let st2 := removeReq config st
      if 0 < config.retry then (st2, ErrorAction.retryWith config e)
      else (st2, ErrorAction.rejectErr e)

/-- What MAxios.retry decides synchronously: reject the carried error, or
re-issue an updated descriptor after a delay. -/
inductive RetryDecision (ε : Type) where
  | reject (e : ε)
  | reissue (config : Config) (delay : Nat)

/-- Embeds the delay computation of MAxios.retry (src/index.js lines 96-98):
a function retryDelay is applied to the incremented counter, a numeric one is
multiplied by the counter when retryDelayRise is set and by 1 otherwise. -/
def computeDelay (config : Config) (retryCount : Nat) : Nat :=
  match config.retryDelay with
  | RetryDelay.fn f => f retryCount
  | RetryDelay.num n => n * (if config.retryDelayRise then retryCount else 1)

/-- Embeds the synchronous core of MAxios.retry (src/index.js lines 80-109):
normalize __retryCount, reject the carried error when the budget is spent,
otherwise increment the counter in the descriptor, raise timeout to 15000 on
the final permitted attempt, compute the delay, and re-issue the updated
descriptor.  The asynchronous part (setTimeout, then instance.request on the
same instance) is interpreted by runInstance. -/
def retryStep (config : Config) (error : ε) : RetryDecision ε :=
  let retryCount := config.__retryCount.getD 0
  if config.retry ≤ retryCount then RetryDecision.reject error
  else
    let retryCount2 := retryCount + 1
    let config2 : Config :=
      { config with
          __retryCount := some retryCount2,
          timeout := if retryCount2 = config.retry then 15000 else config.timeout }
    RetryDecision.reissue config2 (computeDelay config retryCount2)

/-- One request through an axios instance with the MAxios interceptors
attached (src/index.js lines 145-193 and 211-213): the request interceptor,
one transport dispatch, then the response interceptor.  A transport failure
carries the request descriptor as error.config, so the rejected branch runs
removeReq on it and, when config.retry is positive, delegates to MAxios.retry;
a reissue decision records the delay and re-enters the same pipeline.  A
cancellation cannot reach this single-request run (the descriptor token can
only fire after the request settles here); the cancel branch is embedded in
interceptorsResponseError and exercised by backToBack. -/
def runInstance (transport : Nat → Config → TResult ρ ε)
    (st : MState ρ) (config : Config) : MState ρ × Outcome ρ ε :=
  let st1 := requestHook config st
  let st2 := dispatch st1
  match transport st1.transportCalls config with
  | TResult.success resp => interceptorsResponseSuccess config resp st2
  | TResult.failure err =>
      let st3 := removeReq config st2
      if 0 < config.retry then
        match h2 : retryStep config err with
        | RetryDecision.reject e2 => (st3, Outcome.rejected e2)
        | RetryDecision.reissue config2 delay =>
            runInstance transport { st3 with delays := st3.delays ++ [delay] } config2
      else (st3, Outcome.rejected err)
termination_by config.retry - config.__retryCount.getD 0
decreasing_by
  simp only [retryStep] at h2
  split at h2
  · exact absurd h2 (by simp)
  · simp only [RetryDecision.reissue.injEq] at h2
    obtain ⟨hc, -⟩ := h2
    subst hc
    simp only [Option.getD_some]
    omega

/-- The caller-facing options record: Object.assign merges every own property
over defaultConfig, so a field is either supplied or defaulted. -/
structure Options where
  method : Option String := none
  url : Option String := none
  cancelDuplicated : Option Bool := none
  duplicatedKey : Option (ConfigBase → String) := none
  retry : Option Nat := none
  retryDelay : Option RetryDelay := none
  retryDelayRise : Option Bool := none
  timeout : Option Int := none
  cache : Option Bool := none

/-- Object.assign({}, defaultConfig, options) of MAxios.request
(src/index.js line 200), with the JavaScript defaults of lines 3-12. -/
def mergeConfig (options : Options) : Config :=
  { method := options.method.getD "GET"
    url := options.url.getD ""
    cancelDuplicated := options.cancelDuplicated.getD false
    retry := options.retry.getD 0
    retryDelay := options.retryDelay.getD (RetryDelay.num 200)
    retryDelayRise := options.retryDelayRise.getD true
    timeout := options.timeout.getD (-1)
    cache := options.cache.getD false
    __retryCount := none
    duplicatedKey := options.duplicatedKey }

/-- Embeds MAxios.request (src/index.js lines 199-214): merge the options
over the defaults; when cache is set and the derived key has a stored
response, resolve with it at once (no instance is built, no interceptor
runs, the state is untouched); otherwise build an instance, attach the
interceptors and issue the call. -/
def request (transport : Nat → Config → TResult ρ ε)
    (st : MState ρ) (options : Options) : MState ρ × Outcome ρ ε :=
  let config := mergeConfig options
  if config.cache then
    match getResponseCache config st with
    | some responseCache => (st, Outcome.resolved responseCache)
    | none => runInstance transport st config
  else
    runInstance transport st config

/-- Interprets an ErrorAction as the settlement the caller observes.  The
retryWith arm delegates to the scheduler and is never produced for a
cancellation (isCancel is checked first); it is mapped to a plain rejection
here only to keep the interpreter total, and backToBack only applies it to
cancellations. -/
def actionOutcome : ErrorAction ε → Outcome ρ ε
  | ErrorAction.rejectCancel m => Outcome.canceled m
  | ErrorAction.rejectErr e => Outcome.rejected e
  | ErrorAction.retryWith _ e => Outcome.rejected e

/-- First invocation recorded for a given cancellation handle. -/
def findCancel (t : Nat) : List (Nat × CancelErr) → Option CancelErr
  | [] => none
  | (t2, e) :: rest => if t2 = t then some e else findCancel t rest

/-- Two requests issued back to back whose transports would each fulfill:
the first request runs its request interceptor and its transport is
dispatched; while it is in flight the second request runs its request
interceptor and its transport is dispatched.  If the second interceptor
invoked the cancellation handle the first request registered, axios aborts
the first request: it settles through the cancel branch of the response
interceptor (before the second transport answers, since the abort is
immediate); otherwise the first request settles with its response.  The
second request then settles with its response; its own handle can only fire
after it has settled, so it is never aborted in this interleaving. -/
def backToBack (st0 : MState ρ) (c1 c2 : Config) (resp1 resp2 : ρ) :
    Outcome ρ ε × Outcome ρ ε × MState ρ :=
  let stA := requestHook c1 st0
  let tok1 := mlookup (getDuplicatedKey c1) stA.requestMap
  let stB := dispatch stA
  let stC := requestHook c2 stB
  let stD := dispatch stC
  let r1Canceled : Option CancelErr :=
    match tok1 with
    | none => none
    | some t => findCancel t stD.cancelled
  match r1Canceled with
  | some m =>
      let p := interceptorsResponseError stD (AxiosError.cancel (ε := ε) m)
      let q := interceptorsResponseSuccess (ε := ε) c2 resp2 p.1
      (actionOutcome p.2, q.2, q.1)
  | none =>
      let p := interceptorsResponseSuccess (ε := ε) c1 resp1 stD
      let q := interceptorsResponseSuccess (ε := ε) c2 resp2 p.1
      (p.2, q.2, q.1)

/-- At most one pending entry per key: the key list of the registry has no
duplicates. -/
def KeysNodup (m : List (String × Nat)) : Prop :=
  (m.map Prod.fst).Nodup

namespace TSVariant

/-- Embeds getDuplicatedKey of the TypeScript variant: it returns
duplicatedKey(config) directly, defaulting the function to one returning the
empty string when the field is absent — there is no non-empty check and no
fallback to lowercase(method) concatenated with url. -/
def getDuplicatedKey (config : Config) : String :=
  (config.duplicatedKey.getD (fun _ => "")) config.toConfigBase

/-- The duplicatedKey entry of the TypeScript defaultConfig: a function
computing lowercase(method) concatenated with url. -/
def defaultDuplicatedKey : ConfigBase → String :=
  fun c => toLowerStr c.method ++ c.url

/-- Object.assign merge of the TypeScript variant: its defaultConfig supplies
a duplicatedKey function (and method "get"), so the merged descriptor always
carries one. -/
def mergeConfig (options : Options) : Config :=
  { method := options.method.getD "get"
    url := options.url.getD ""
    cancelDuplicated := options.cancelDuplicated.getD false
    retry := options.retry.getD 0
    retryDelay := options.retryDelay.getD (RetryDelay.num 200)
    retryDelayRise := options.retryDelayRise.getD true
    timeout := options.timeout.getD (-1)
    cache := options.cache.getD false
    __retryCount := none
    duplicatedKey := some (options.duplicatedKey.getD defaultDuplicatedKey) }

end TSVariant

/-- Concrete fixture: a descriptor that opts into dedup-cancellation and has a
retry budget. -/
def wDup : Config := { url := "/a", cancelDuplicated := true, retry := 5 }

/-- Concrete fixture: same key as wDup but without dedup-cancellation. -/
def wNoDup : Config := { url := "/a", cancelDuplicated := false }

/-- Concrete fixture: a state holding one cached response under the default
key of wDup. -/
def wStCached : MState Nat := { responseCacheMap := [("get/a", 42)] }

/-- Concrete fixture: a transport that always fails, with distinguishable
errors. -/
def wFailT : Nat → Config → TResult Nat Nat := fun n _ => TResult.failure n

/-! Helper lemmas: association lists, cancellation log, state-component
preservation, and a characterization of retryStep. -/

theorem mlookup_append_of_none {α : Type} {k : String} {m : List (String × α)}
    (h : mlookup k m = none) (l : List (String × α)) :
    mlookup k (m ++ l) = mlookup k l := by
  induction m with
  | nil => simp
  | cons p rest ih =>
      obtain ⟨k2, v⟩ := p
      simp only [mlookup, List.cons_append] at h ⊢
      by_cases hk : k2 = k
      · simp [hk] at h
      · simp only [if_neg hk] at h ⊢
        exact ih h

theorem mlookup_eq_none_iff {α : Type} {k : String} {m : List (String × α)} :
    mlookup k m = none ↔ k ∉ m.map Prod.fst := by
  induction m with
  | nil => simp [mlookup]
  | cons p rest ih =>
      obtain ⟨k2, v⟩ := p
      by_cases hk : k2 = k
      · subst hk
        simp [mlookup]
      · simp only [mlookup, if_neg hk, List.map_cons, List.mem_cons]
        rw [ih]
        constructor
        · rintro hn (h1 | h2)
          · exact hk h1.symm
          · exact hn h2
        · intro hn h2
          exact hn (Or.inr h2)

theorem merase_append_of_none {α : Type} {k : String} {m : List (String × α)}
    (h : mlookup k m = none) (l : List (String × α)) :
    merase k (m ++ l) = m ++ merase k l := by
  induction m with
  | nil => simp
  | cons p rest ih =>
      obtain ⟨k2, v⟩ := p
      simp only [mlookup] at h
      by_cases hk : k2 = k
      · simp [hk] at h
      · simp only [if_neg hk] at h
        simp only [List.cons_append, merase, if_neg hk, List.append_eq, ih h]

theorem merase_sublist {α : Type} (k : String) (m : List (String × α)) :
    (merase k m).Sublist m := by
  induction m with
  | nil => simp [merase]
  | cons p rest ih =>
      obtain ⟨k2, v⟩ := p
      by_cases hk : k2 = k
      · simp only [merase, if_pos hk]
        exact List.sublist_cons_self _ _
      · simp only [merase, if_neg hk]
        exact ih.cons₂ _

theorem keysNodup_merase {k : String} {m : List (String × Nat)}
    (h : KeysNodup m) : KeysNodup (merase k m) :=
  List.Nodup.sublist (List.Sublist.map Prod.fst (merase_sublist k m)) h

theorem keysNodup_append_of_none {k : String} {m : List (String × Nat)} (t : Nat)
    (h : KeysNodup m) (hk : mlookup k m = none) :
    KeysNodup (m ++ [(k, t)]) := by
  unfold KeysNodup at h ⊢
  rw [List.map_append]
  refine List.Nodup.append h (List.nodup_singleton k) ?_
  intro a ha hb
  simp only [List.map_cons, List.map_nil, List.mem_singleton] at hb
  subst hb
  exact (mlookup_eq_none_iff.mp hk) ha

theorem mlookup_merase_self {α : Type} {k : String} {m : List (String × α)}
    (h : (m.map Prod.fst).Nodup) : mlookup k (merase k m) = none := by
  induction m with
  | nil => simp [merase, mlookup]
  | cons p rest ih =>
      obtain ⟨k2, v⟩ := p
      simp only [List.map_cons, List.nodup_cons] at h
      by_cases hk : k2 = k
      · subst hk
        simp only [merase, if_pos rfl]
        exact mlookup_eq_none_iff.mpr h.1
      · simp only [merase, if_neg hk, mlookup, if_neg hk]
        exact ih h.2

theorem findCancel_eq_none {l : List (Nat × CancelErr)} {t : Nat}
    (h : ∀ p ∈ l, p.1 ≠ t) : findCancel t l = none := by
  induction l with
  | nil => simp [findCancel]
  | cons p rest ih =>
      obtain ⟨t2, e⟩ := p
      simp only [findCancel]
      rw [if_neg (h (t2, e) (List.mem_cons_self _ _))]
      exact ih (fun q hq => h q (List.mem_cons_of_mem _ hq))

theorem findCancel_append_self {l : List (Nat × CancelErr)} {t : Nat} (e : CancelErr)
    (h : ∀ p ∈ l, p.1 ≠ t) : findCancel t (l ++ [(t, e)]) = some e := by
  induction l with
  | nil => simp [findCancel]
  | cons p rest ih =>
      obtain ⟨t2, e2⟩ := p
      simp only [List.cons_append, findCancel]
      rw [if_neg (h (t2, e2) (List.mem_cons_self _ _))]
      exact ih (fun q hq => h q (List.mem_cons_of_mem _ hq))

@[simp] theorem removeReq_responseCacheMap (config : Config) (st : MState ρ) :
    (removeReq config st).responseCacheMap = st.responseCacheMap := by
  simp only [removeReq]
  split
  · rfl
  · split <;> rfl

@[simp] theorem removeReq_transportCalls (config : Config) (st : MState ρ) :
    (removeReq config st).transportCalls = st.transportCalls := by
  simp only [removeReq]
  split
  · rfl
  · split <;> rfl

@[simp] theorem removeReq_nextToken (config : Config) (st : MState ρ) :
    (removeReq config st).nextToken = st.nextToken := by
  simp only [removeReq]
  split
  · rfl
  · split <;> rfl

@[simp] theorem removeReq_delays (config : Config) (st : MState ρ) :
    (removeReq config st).delays = st.delays := by
  simp only [removeReq]
  split
  · rfl
  · split <;> rfl

@[simp] theorem addReq_responseCacheMap (config : Config) (st : MState ρ) :
    (addReq config st).responseCacheMap = st.responseCacheMap := by
  simp only [addReq]
  split
  · rfl
  · split <;> rfl

@[simp] theorem addReq_transportCalls (config : Config) (st : MState ρ) :
    (addReq config st).transportCalls = st.transportCalls := by
  simp only [addReq]
  split
  · rfl
  · split <;> rfl

@[simp] theorem addReq_cancelled (config : Config) (st : MState ρ) :
    (addReq config st).cancelled = st.cancelled := by
  simp only [addReq]
  split
  · rfl
  · split <;> rfl

@[simp] theorem addReq_delays (config : Config) (st : MState ρ) :
    (addReq config st).delays = st.delays := by
  simp only [addReq]
  split
  · rfl
  · split <;> rfl

@[simp] theorem setResponseCache_requestMap (config : Config) (r : ρ) (st : MState ρ) :
    (setResponseCache config r st).requestMap = st.requestMap := by
  simp only [setResponseCache]
  split <;> rfl

@[simp] theorem setResponseCache_transportCalls (config : Config) (r : ρ) (st : MState ρ) :
    (setResponseCache config r st).transportCalls = st.transportCalls := by
  simp only [setResponseCache]
  split <;> rfl

@[simp] theorem setResponseCache_cancelled (config : Config) (r : ρ) (st : MState ρ) :
    (setResponseCache config r st).cancelled = st.cancelled := by
  simp only [setResponseCache]
  split <;> rfl

@[simp] theorem setResponseCache_nextToken (config : Config) (r : ρ) (st : MState ρ) :
    (setResponseCache config r st).nextToken = st.nextToken := by
  simp only [setResponseCache]
  split <;> rfl

@[simp] theorem setResponseCache_delays (config : Config) (r : ρ) (st : MState ρ) :
    (setResponseCache config r st).delays = st.delays := by
  simp only [setResponseCache]
  split <;> rfl

@[simp] theorem dispatch_requestMap (st : MState ρ) :
    (dispatch st).requestMap = st.requestMap := rfl

@[simp] theorem dispatch_responseCacheMap (st : MState ρ) :
    (dispatch st).responseCacheMap = st.responseCacheMap := rfl

@[simp] theorem dispatch_cancelled (st : MState ρ) :
    (dispatch st).cancelled = st.cancelled := rfl

@[simp] theorem dispatch_nextToken (st : MState ρ) :
    (dispatch st).nextToken = st.nextToken := rfl

@[simp] theorem dispatch_delays (st : MState ρ) :
    (dispatch st).delays = st.delays := rfl

@[simp] theorem dispatch_transportCalls (st : MState ρ) :
    (dispatch st).transportCalls = st.transportCalls + 1 := rfl

@[simp] theorem requestHook_responseCacheMap (config : Config) (st : MState ρ) :
    (requestHook config st).responseCacheMap = st.responseCacheMap := by
  simp [requestHook]

@[simp] theorem requestHook_transportCalls (config : Config) (st : MState ρ) :
    (requestHook config st).transportCalls = st.transportCalls := by
  simp [requestHook]

@[simp] theorem requestHook_delays (config : Config) (st : MState ρ) :
    (requestHook config st).delays = st.delays := by
  simp [requestHook]

theorem removeReq_not_flag {config : Config} (st : MState ρ)
    (h : config.cancelDuplicated = false) : removeReq config st = st := by
  simp [removeReq, h]

theorem addReq_not_flag {config : Config} (st : MState ρ)
    (h : config.cancelDuplicated = false) : addReq config st = st := by
  simp [addReq, h]

theorem removeReq_absent {config : Config} {st : MState ρ}
    (h : mlookup (getDuplicatedKey config) st.requestMap = none) :
    removeReq config st = st := by
  simp only [removeReq, h]
  split <;> rfl

theorem removeReq_present {config : Config} {st : MState ρ} {tok : Nat}
    (hf : config.cancelDuplicated = true)
    (h : mlookup (getDuplicatedKey config) st.requestMap = some tok) :
    removeReq config st =
      { st with
          requestMap := merase (getDuplicatedKey config) st.requestMap,
          cancelled := st.cancelled ++ [(tok, requestCanceledError)] } := by
  simp [removeReq, hf, h]

theorem addReq_absent {config : Config} {st : MState ρ}
    (hf : config.cancelDuplicated = true)
    (h : mlookup (getDuplicatedKey config) st.requestMap = none) :
    addReq config st =
      { st with
          requestMap := st.requestMap ++ [(getDuplicatedKey config, st.nextToken)],
          nextToken := st.nextToken + 1 } := by
  simp [addReq, hf, h]

theorem addReq_present {config : Config} {st : MState ρ} {tok : Nat}
    (h : mlookup (getDuplicatedKey config) st.requestMap = some tok) :
    addReq config st = st := by
  simp only [addReq]
  split
  · rfl
  · rw [if_pos (by simp [h])]

theorem setResponseCache_not_cache {config : Config} (r : ρ) (st : MState ρ)
    (h : config.cache = false) : setResponseCache config r st = st := by
  simp [setResponseCache, h]

theorem retryStep_of_ge {config : Config} (e : ε)
    (h : config.retry ≤ config.__retryCount.getD 0) :
    retryStep config e = RetryDecision.reject e := by
  simp only [retryStep]
  rw [if_pos h]

theorem retryStep_of_lt {config : Config} (e : ε)
    (h : config.__retryCount.getD 0 < config.retry) :
    retryStep config e =
      RetryDecision.reissue
        { config with
            __retryCount := some (config.__retryCount.getD 0 + 1),
            timeout :=
              if config.__retryCount.getD 0 + 1 = config.retry then 15000
              else config.timeout }
        (computeDelay config (config.__retryCount.getD 0 + 1)) := by
  simp only [retryStep]
  rw [if_neg (by omega)]

theorem runInstance_success (transport : Nat → Config → TResult ρ ε)
    (st : MState ρ) (config : Config) (r : ρ)
    (hres : transport (requestHook config st).transportCalls config = TResult.success r) :
    runInstance transport st config =
      interceptorsResponseSuccess config r (dispatch (requestHook config st)) := by
  rw [runInstance]
  simp only [hres]

theorem runInstance_failure_exhausted (transport : Nat → Config → TResult ρ ε)
    (st : MState ρ) (config : Config) (e : ε)
    (hres : transport (requestHook config st).transportCalls config = TResult.failure e)
    (hge : config.retry ≤ config.__retryCount.getD 0) :
    runInstance transport st config =
      (removeReq config (dispatch (requestHook config st)), Outcome.rejected e) := by
  rw [runInstance]
  simp only [hres]
  split
  · rw [retryStep_of_ge e hge]
  · rfl

theorem runInstance_failure_reissue (transport : Nat → Config → TResult ρ ε)
    (st : MState ρ) (config : Config) (e : ε)
    (hres : transport (requestHook config st).transportCalls config = TResult.failure e)
    (hlt : config.__retryCount.getD 0 < config.retry) :
    runInstance transport st config =
      runInstance transport
        { removeReq config (dispatch (requestHook config st)) with
            delays := (removeReq config (dispatch (requestHook config st))).delays
              ++ [computeDelay config (config.__retryCount.getD 0 + 1)] }
        { config with
            __retryCount := some (config.__retryCount.getD 0 + 1),
            timeout :=
              if config.__retryCount.getD 0 + 1 = config.retry then 15000
              else config.timeout } := by
  rw [runInstance]
  simp only [hres]
  rw [if_pos (by omega : 0 < config.retry), retryStep_of_lt e hlt]

theorem removeReq_comm_cache (config : Config) (st : MState ρ) (mm : List (String × ρ)) :
    removeReq config { st with responseCacheMap := mm } =
      { removeReq config st with responseCacheMap := mm } := by
  unfold removeReq
  cases hf : config.cancelDuplicated <;>
    cases hl : mlookup (getDuplicatedKey config) st.requestMap <;>
      simp [hf, hl]

theorem addReq_comm_cache (config : Config) (st : MState ρ) (mm : List (String × ρ)) :
    addReq config { st with responseCacheMap := mm } =
      { addReq config st with responseCacheMap := mm } := by
  unfold addReq
  cases hf : config.cancelDuplicated <;>
    cases hl : mlookup (getDuplicatedKey config) st.requestMap <;>
      simp [hf, hl]

theorem requestHook_comm_cache (config : Config) (st : MState ρ) (mm : List (String × ρ)) :
    requestHook config { st with responseCacheMap := mm } =
      { requestHook config st with responseCacheMap := mm } := by
  unfold requestHook
  rw [removeReq_comm_cache, addReq_comm_cache]

theorem dispatch_comm_cache (st : MState ρ) (mm : List (String × ρ)) :
    dispatch { st with responseCacheMap := mm } = { dispatch st with responseCacheMap := mm } := rfl

theorem interceptorsResponseSuccess_comm_cache (config : Config) (r : ρ) (st : MState ρ)
    (hc : config.cache = false) (mm : List (String × ρ)) :
    interceptorsResponseSuccess (ε := ε) config r { st with responseCacheMap := mm } =
      ({ (interceptorsResponseSuccess (ε := ε) config r st).1 with responseCacheMap := mm },
       (interceptorsResponseSuccess (ε := ε) config r st).2) := by
  simp only [interceptorsResponseSuccess, setResponseCache_not_cache _ _ hc,
    removeReq_comm_cache]

theorem removeReq_keysNodup (config : Config) {st : MState ρ}
    (h : KeysNodup st.requestMap) : KeysNodup (removeReq config st).requestMap := by
  unfold removeReq
  cases hf : config.cancelDuplicated <;>
    cases hl : mlookup (getDuplicatedKey config) st.requestMap <;>
      simp [hf, hl, h, keysNodup_merase]

theorem addReq_keysNodup (config : Config) {st : MState ρ}
    (h : KeysNodup st.requestMap) : KeysNodup (addReq config st).requestMap := by
  unfold addReq
  cases hf : config.cancelDuplicated <;>
    cases hl : mlookup (getDuplicatedKey config) st.requestMap <;>
      simp [hf, hl, h, keysNodup_append_of_none]

theorem requestHook_keysNodup (config : Config) {st : MState ρ}
    (h : KeysNodup st.requestMap) : KeysNodup (requestHook config st).requestMap :=
  addReq_keysNodup config (removeReq_keysNodup config h)

theorem runInstance_fail_calls (transport : Nat → Config → TResult ρ ε)
    (hfail : ∀ n c, ∃ e, transport n c = TResult.failure e) :
    ∀ gas (st : MState ρ) (config : Config),
      config.retry - config.__retryCount.getD 0 = gas →
      (runInstance transport st config).1.transportCalls = st.transportCalls + gas + 1 := by
  intro gas
  induction gas with
  | zero =>
      intro st config hgas
      obtain ⟨e, he⟩ := hfail (requestHook config st).transportCalls config
      rw [runInstance]
      simp only [he]
      split
      · rw [retryStep_of_ge e (by omega)]
        simp
      · simp
  | succ g ih =>
      intro st config hgas
      obtain ⟨e, he⟩ := hfail (requestHook config st).transportCalls config
      rw [runInstance]
      simp only [he]
      rw [if_pos (by omega : 0 < config.retry), retryStep_of_lt e (by omega)]
      rw [ih _ _ (by simp; omega)]
      simp
      omega

theorem runInstance_cache_false (transport : Nat → Config → TResult ρ ε) :
    ∀ gas (st : MState ρ) (config : Config),
      config.retry - config.__retryCount.getD 0 = gas →
      config.cache = false →
      ∀ mm, runInstance transport { st with responseCacheMap := mm } config =
        ({ (runInstance transport st config).1 with responseCacheMap := mm },
         (runInstance transport st config).2) := by
  intro gas
  induction gas with
  | zero =>
      intro st config hgas hc mm
      cases hres : transport (requestHook config st).transportCalls config with
      | success resp =>
          have hres2 : transport
              (requestHook config { st with responseCacheMap := mm }).transportCalls config =
              TResult.success resp := by simpa using hres
          rw [runInstance_success transport { st with responseCacheMap := mm } config resp hres2,
            runInstance_success transport st config resp hres,
            requestHook_comm_cache, dispatch_comm_cache]
          exact interceptorsResponseSuccess_comm_cache config resp _ hc mm
      | failure e =>
          have hres2 : transport
              (requestHook config { st with responseCacheMap := mm }).transportCalls config =
              TResult.failure e := by simpa using hres
          rw [runInstance_failure_exhausted transport { st with responseCacheMap := mm }
              config e hres2 (by omega),
            runInstance_failure_exhausted transport st config e hres (by omega),
            requestHook_comm_cache, dispatch_comm_cache, removeReq_comm_cache]
  | succ g ih =>
      intro st config hgas hc mm
      cases hres : transport (requestHook config st).transportCalls config with
      | success resp =>
          have hres2 : transport
              (requestHook config { st with responseCacheMap := mm }).transportCalls config =
              TResult.success resp := by simpa using hres
          rw [runInstance_success transport { st with responseCacheMap := mm } config resp hres2,
            runInstance_success transport st config resp hres,
            requestHook_comm_cache, dispatch_comm_cache]
          exact interceptorsResponseSuccess_comm_cache config resp _ hc mm
      | failure e =>
          have hres2 : transport
              (requestHook config { st with responseCacheMap := mm }).transportCalls config =
              TResult.failure e := by simpa using hres
          rw [runInstance_failure_reissue transport { st with responseCacheMap := mm }
              config e hres2 (by omega),
            runInstance_failure_reissue transport st config e hres (by omega),
            requestHook_comm_cache, dispatch_comm_cache, removeReq_comm_cache]
          exact ih
            { removeReq config (dispatch (requestHook config st)) with
                delays := (removeReq config (dispatch (requestHook config st))).delays
                  ++ [computeDelay config (config.__retryCount.getD 0 + 1)] }
            { config with
                __retryCount := some (config.__retryCount.getD 0 + 1),
                timeout :=
                  if config.__retryCount.getD 0 + 1 = config.retry then 15000
                  else config.timeout }
            (by simp; omega) (by simpa using hc) mm

theorem runInstance_keysNodup (transport : Nat → Config → TResult ρ ε) :
    ∀ gas (st : MState ρ) (config : Config),
      config.retry - config.__retryCount.getD 0 = gas →
      KeysNodup st.requestMap →
      KeysNodup ((runInstance transport st config).1.requestMap) := by
  intro gas
  induction gas with
  | zero =>
      intro st config hgas h
      rw [runInstance]
      cases hres : transport (requestHook config st).transportCalls config with
      | success resp =>
          simp only [hres, interceptorsResponseSuccess, setResponseCache_requestMap]
          exact removeReq_keysNodup config (requestHook_keysNodup config h)
      | failure e =>
          simp only [hres]
          split
          · rw [retryStep_of_ge e (by omega)]
            exact removeReq_keysNodup config (requestHook_keysNodup config h)
          · exact removeReq_keysNodup config (requestHook_keysNodup config h)
  | succ g ih =>
      intro st config hgas h
      rw [runInstance]
      cases hres : transport (requestHook config st).transportCalls config with
      | success resp =>
          simp only [hres, interceptorsResponseSuccess, setResponseCache_requestMap]
          exact removeReq_keysNodup config (requestHook_keysNodup config h)
      | failure e =>
          simp only [hres]
          rw [if_pos (by omega : 0 < config.retry), retryStep_of_lt e (by omega)]
          refine ih _ _ (by simp; omega) ?_
          exact removeReq_keysNodup config (requestHook_keysNodup config h)

@[simp] theorem interceptorsResponseSuccess_snd (config : Config) (r : ρ) (st : MState ρ) :
    (interceptorsResponseSuccess (ε := ε) config r st).2 = Outcome.resolved r := rfl

@[simp] theorem interceptorsResponseSuccess_fst_transportCalls
    (config : Config) (r : ρ) (st : MState ρ) :
    (interceptorsResponseSuccess (ε := ε) config r st).1.transportCalls = st.transportCalls := by
  simp [interceptorsResponseSuccess]

@[simp] theorem interceptorsResponseError_cancel (st : MState ρ) (m : CancelErr) :
    interceptorsResponseError (ε := ε) st (AxiosError.cancel m) =
      (st, ErrorAction.rejectCancel m) := rfl

theorem requestHook_register {c : Config} {st : MState ρ}
    (hf : c.cancelDuplicated = true)
    (habs : mlookup (getDuplicatedKey c) st.requestMap = none) :
    requestHook c st =
      { st with
          requestMap := st.requestMap ++ [(getDuplicatedKey c, st.nextToken)],
          nextToken := st.nextToken + 1 } := by
  unfold requestHook
  rw [removeReq_absent habs, addReq_absent hf habs]

theorem requestHook_supersede {c : Config} {st : MState ρ} {tok : Nat}
    (hf : c.cancelDuplicated = true)
    (h : mlookup (getDuplicatedKey c) st.requestMap = some tok)
    (hafter : mlookup (getDuplicatedKey c) (merase (getDuplicatedKey c) st.requestMap) = none) :
    requestHook c st =
      { st with
          requestMap := merase (getDuplicatedKey c) st.requestMap
            ++ [(getDuplicatedKey c, st.nextToken)],
          cancelled := st.cancelled ++ [(tok, requestCanceledError)],
          nextToken := st.nextToken + 1 } := by
  unfold requestHook
  rw [removeReq_present hf h, addReq_absent hf (by simpa using hafter)]

theorem requestHook_noflag {c : Config} (st : MState ρ)
    (hf : c.cancelDuplicated = false) : requestHook c st = st := by
  unfold requestHook
  rw [removeReq_not_flag st hf, addReq_not_flag st hf]

theorem backToBack_true_spec (st0 : MState ρ) (c1 c2 : Config) (r1 r2 : ρ)
    (hkey : getDuplicatedKey c2 = getDuplicatedKey c1)
    (h1 : c1.cancelDuplicated = true)
    (h2 : c2.cancelDuplicated = true)
    (habs : mlookup (getDuplicatedKey c1) st0.requestMap = none)
    (hfresh : ∀ p ∈ st0.cancelled, p.1 < st0.nextToken) :
    (backToBack (ε := ε) st0 c1 c2 r1 r2).1 = Outcome.canceled requestCanceledError ∧
    (backToBack (ε := ε) st0 c1 c2 r1 r2).2.1 = Outcome.resolved r2 ∧
    (backToBack (ε := ε) st0 c1 c2 r1 r2).2.2.transportCalls = st0.transportCalls + 2 := by
  have hA := requestHook_register h1 habs
  have htokA : mlookup (getDuplicatedKey c1) (requestHook c1 st0).requestMap =
      some st0.nextToken := by
    rw [hA]
    show mlookup _ (st0.requestMap ++ [(getDuplicatedKey c1, st0.nextToken)]) = _
    rw [mlookup_append_of_none habs]
    simp [mlookup]
  have hmer : merase (getDuplicatedKey c1) (dispatch (requestHook c1 st0)).requestMap =
      st0.requestMap := by
    simp only [dispatch_requestMap]
    rw [hA]
    show merase _ (st0.requestMap ++ [(getDuplicatedKey c1, st0.nextToken)]) = _
    rw [merase_append_of_none habs]
    simp [merase]
  have htokB : mlookup (getDuplicatedKey c2) (dispatch (requestHook c1 st0)).requestMap =
      some st0.nextToken := by
    rw [hkey]
    simpa using htokA
  have hafterB : mlookup (getDuplicatedKey c2)
      (merase (getDuplicatedKey c2) (dispatch (requestHook c1 st0)).requestMap) = none := by
    rw [hkey, hmer]
    exact habs
  have hC := requestHook_supersede h2 htokB hafterB
  have hcanc : (requestHook c2 (dispatch (requestHook c1 st0))).cancelled =
      st0.cancelled ++ [(st0.nextToken, requestCanceledError)] := by
    rw [hC]
    show (dispatch (requestHook c1 st0)).cancelled ++ _ = _
    simp only [dispatch_cancelled]
    rw [hA]
  have hfind : findCancel st0.nextToken
      (requestHook c2 (dispatch (requestHook c1 st0))).cancelled =
      some requestCanceledError := by
    rw [hcanc]
    exact findCancel_append_self _ (fun p hp => Nat.ne_of_lt (hfresh p hp))
  have htc : (requestHook c2 (dispatch (requestHook c1 st0))).transportCalls =
      st0.transportCalls + 1 := by
    rw [hC]
    show (dispatch (requestHook c1 st0)).transportCalls = st0.transportCalls + 1
    simp only [dispatch_transportCalls]
    rw [hA]
  simp only [backToBack, htokA, dispatch_cancelled, hfind, interceptorsResponseError_cancel,
    actionOutcome, interceptorsResponseSuccess_snd,
    interceptorsResponseSuccess_fst_transportCalls, dispatch_transportCalls, htc]
  exact ⟨trivial, trivial, trivial⟩

theorem backToBack_false_spec (st0 : MState ρ) (c1 c2 : Config) (r1 r2 : ρ)
    (h1 : c1.cancelDuplicated = true)
    (h2 : c2.cancelDuplicated = false)
    (habs : mlookup (getDuplicatedKey c1) st0.requestMap = none)
    (hfresh : ∀ p ∈ st0.cancelled, p.1 < st0.nextToken) :
    requestHook c2 (dispatch (requestHook c1 st0)) = dispatch (requestHook c1 st0) ∧
    (backToBack (ε := ε) st0 c1 c2 r1 r2).1 = Outcome.resolved r1 ∧
    (backToBack (ε := ε) st0 c1 c2 r1 r2).2.1 = Outcome.resolved r2 ∧
    (backToBack (ε := ε) st0 c1 c2 r1 r2).2.2.transportCalls = st0.transportCalls + 2 := by
  have hA := requestHook_register h1 habs
  have htokA : mlookup (getDuplicatedKey c1) (requestHook c1 st0).requestMap =
      some st0.nextToken := by
    rw [hA]
    show mlookup _ (st0.requestMap ++ [(getDuplicatedKey c1, st0.nextToken)]) = _
    rw [mlookup_append_of_none habs]
    simp [mlookup]
  have hH2 := requestHook_noflag (c := c2) (dispatch (requestHook c1 st0)) h2
  have htc1 : (requestHook c1 st0).transportCalls = st0.transportCalls := by
    rw [hA]
  have hcanc1 : (requestHook c1 st0).cancelled = st0.cancelled := by
    rw [hA]
  have hfind : findCancel st0.nextToken st0.cancelled = none :=
    findCancel_eq_none (fun p hp => Nat.ne_of_lt (hfresh p hp))
  refine ⟨hH2, ?_⟩
  simp only [backToBack, htokA, dispatch_cancelled, hH2, hcanc1, hfind,
    interceptorsResponseSuccess_snd, interceptorsResponseSuccess_fst_transportCalls,
    dispatch_transportCalls, htc1]
  exact ⟨trivial, trivial, trivial⟩

/-! The claim theorems and their witnesses. -/

/-- C1: a request issued with cache = true whose derived key already has a
stored response resolves immediately with that stored response, and the state
is returned untouched: the transport is not invoked (transportCalls is
unchanged), the interceptor pipeline never runs (requestMap and cancelled are
unchanged), and the cache entry for the key is not refreshed. -/
theorem request_cache_hit_spec (transport : Nat → Config → TResult ρ ε)
    (st : MState ρ) (options : Options) (r : ρ)
    (hc : (mergeConfig options).cache = true)
    (hhit : getResponseCache (mergeConfig options) st = some r) :
    request transport st options = (st, Outcome.resolved r) := by
  simp [request, hc, hhit]

/-- Witness for request_cache_hit_spec at a concrete cached state. -/
theorem request_cache_hit_spec_witness :
    request (ε := Nat) wFailT wStCached { url := some "/a", cache := some true } =
      (wStCached, Outcome.resolved 42) :=
  request_cache_hit_spec wFailT wStCached { url := some "/a", cache := some true } 42
    rfl (by rfl)

/-- C2: with the first request registered in the pending registry under the
key, the second request's flag decides dedup-cancellation.  If the second
sets cancelDuplicated, the first request's handle fires with the structured
Cancel payload so its future rejects as canceled, while the second settles
normally with its own transport response; if the second does not set it, its
pre-request hook performs no supersession and no registration, both requests
settle with their own responses, and the transport was dispatched once per
request. -/
theorem dedup_decided_by_new_flag (st0 : MState ρ) (c1 c2 : Config) (r1 r2 : ρ)
    (hkey : getDuplicatedKey c2 = getDuplicatedKey c1)
    (h1 : c1.cancelDuplicated = true)
    (habs : mlookup (getDuplicatedKey c1) st0.requestMap = none)
    (hfresh : ∀ p ∈ st0.cancelled, p.1 < st0.nextToken) :
    (c2.cancelDuplicated = true →
      (backToBack (ε := ε) st0 c1 c2 r1 r2).1 = Outcome.canceled requestCanceledError ∧
      (backToBack (ε := ε) st0 c1 c2 r1 r2).2.1 = Outcome.resolved r2 ∧
      (backToBack (ε := ε) st0 c1 c2 r1 r2).2.2.transportCalls =
        st0.transportCalls + 2) ∧
    (c2.cancelDuplicated = false →
      requestHook c2 (dispatch (requestHook c1 st0)) = dispatch (requestHook c1 st0) ∧
      (backToBack (ε := ε) st0 c1 c2 r1 r2).1 = Outcome.resolved r1 ∧
      (backToBack (ε := ε) st0 c1 c2 r1 r2).2.1 = Outcome.resolved r2 ∧
      (backToBack (ε := ε) st0 c1 c2 r1 r2).2.2.transportCalls =
        st0.transportCalls + 2) :=
  ⟨fun h2 => backToBack_true_spec st0 c1 c2 r1 r2 hkey h1 h2 habs hfresh,
   fun h2 => backToBack_false_spec st0 c1 c2 r1 r2 h1 h2 habs hfresh⟩

/-- Witness for dedup_decided_by_new_flag on concrete duplicate requests. -/
theorem dedup_decided_by_new_flag_witness :
    (backToBack (ε := Nat) ({} : MState Nat) wDup wDup 1 2).1 =
      Outcome.canceled requestCanceledError ∧
    (backToBack (ε := Nat) ({} : MState Nat) wDup wDup 1 2).2.1 = Outcome.resolved 2 ∧
    (backToBack (ε := Nat) ({} : MState Nat) wDup wNoDup 1 2).1 = Outcome.resolved 1 ∧
    (backToBack (ε := Nat) ({} : MState Nat) wDup wNoDup 1 2).2.2.transportCalls
      = 0 + 2 := by
  have hT := dedup_decided_by_new_flag (ε := Nat) ({} : MState Nat) wDup wDup 1 2
    rfl rfl rfl (fun p hp => absurd hp (List.not_mem_nil p))
  have hF := dedup_decided_by_new_flag (ε := Nat) ({} : MState Nat) wDup wNoDup 1 2
    (by rfl) rfl rfl (fun p hp => absurd hp (List.not_mem_nil p))
  exact ⟨(hT.1 rfl).1, (hT.1 rfl).2.1, (hF.2 rfl).2.1, (hF.2 rfl).2.2.2⟩

/-- C3: against an always-failing transport, a request whose merged descriptor
has retry = n and which reaches the transport (no cache hit) makes exactly
n + 1 transport dispatches in total; moreover every reissue decision
increments the one retryCount carried in the descriptor by exactly one and is
only taken while that counter is below retry. -/
theorem retry_budget_transport_count (transport : Nat → Config → TResult ρ ε)
    (st : MState ρ) (options : Options)
    (hmiss : (mergeConfig options).cache = false ∨
      getResponseCache (mergeConfig options) st = none)
    (hfail : ∀ n c, ∃ e, transport n c = TResult.failure e) :
    (request transport st options).1.transportCalls =
      st.transportCalls + (mergeConfig options).retry + 1 ∧
    (∀ (config : Config) (e : ε) (c2 : Config) (d : Nat),
        retryStep config e = RetryDecision.reissue c2 d →
        c2.__retryCount = some (config.__retryCount.getD 0 + 1) ∧
        config.__retryCount.getD 0 < config.retry) := by
  constructor
  · have hrun : request transport st options =
        runInstance transport st (mergeConfig options) := by
      rcases hmiss with h | h
      · simp [request, h]
      · by_cases hcache : (mergeConfig options).cache
        · simp [request, hcache, h]
        · simp [request, hcache]
    rw [hrun]
    exact runInstance_fail_calls transport hfail (mergeConfig options).retry st
      (mergeConfig options) (by simp [mergeConfig])
  · intro config e c2 d h
    by_cases hge : config.retry ≤ config.__retryCount.getD 0
    · rw [retryStep_of_ge e hge] at h
      exact absurd h (by simp)
    · rw [retryStep_of_lt e (by omega)] at h
      simp only [RetryDecision.reissue.injEq] at h
      refine ⟨?_, by omega⟩
      rw [← h.1]

/-- Witness for retry_budget_transport_count: retry = 2 gives 3 dispatches. -/
theorem retry_budget_transport_count_witness :
    (request (ε := Nat) wFailT ({} : MState Nat) { retry := some 2 }).1.transportCalls
      = 3 :=
  (retry_budget_transport_count wFailT {} { retry := some 2 } (Or.inl rfl)
    (fun n c => ⟨n, rfl⟩)).1

/-- C4: once the descriptor retryCount has reached or exceeded retry, the
retry scheduler rejects, carrying the last underlying error unchanged (the
terminal path the design taxonomy names RetryExhausted), and through the
pipeline a failed dispatch with the budget already spent settles the request
as rejected with exactly that error. -/
theorem retry_exhausted_rejects_last_error (config : Config) (e : ε)
    (h : config.retry ≤ config.__retryCount.getD 0) :
    retryStep config e = RetryDecision.reject e ∧
    (∀ (transport : Nat → Config → TResult ρ ε) (st : MState ρ),
        transport (requestHook config st).transportCalls config = TResult.failure e →
        (runInstance transport st config).2 = Outcome.rejected e) := by
  refine ⟨retryStep_of_ge e h, fun transport st hres => ?_⟩
  rw [runInstance_failure_exhausted transport st config e hres h]

/-- Witness for retry_exhausted_rejects_last_error with the budget spent. -/
theorem retry_exhausted_rejects_last_error_witness :
    retryStep ({ retry := 2, __retryCount := some 2 } : Config) (7 : Nat) =
      RetryDecision.reject 7 ∧
    (runInstance (ρ := Nat) (fun _ _ => TResult.failure 7) ({} : MState Nat)
        { retry := 2, __retryCount := some 2 }).2 = Outcome.rejected 7 := by
  have h := retry_exhausted_rejects_last_error (ρ := Nat)
    ({ retry := 2, __retryCount := some 2 } : Config) (7 : Nat) (by decide)
  exact ⟨h.1, h.2 _ {} rfl⟩

/-- C5 counterexample: in the TypeScript variant, a supplied duplicatedKey
returning the empty string does not fall back to the default key: the derived
key is the empty string, while the JavaScript variant (and the claim) give
"get/a" for the same descriptor. -/
theorem ts_empty_key_no_fallback_cex :
    TSVariant.getDuplicatedKey
        { method := "GET", url := "/a", duplicatedKey := some (fun _ => "") } = "" ∧
    getDuplicatedKey
        { method := "GET", url := "/a", duplicatedKey := some (fun _ => "") } = "get/a" ∧
    ("" : String) ≠ "get/a" :=
  ⟨rfl, by rfl, by decide⟩

/-- C5 amended: the JavaScript variant derives keys exactly as the claim
states (custom non-empty result, else lowercase(method) ++ url, with an empty
custom result falling back to the default, and "get/a" for GET /a); the
TypeScript variant instead returns duplicatedKey(config) unconditionally — an
absent function yields the empty string, the merged TypeScript defaults supply
a function computing lowercase(method) ++ url, and an empty custom result is
used as the key with no fallback. -/
theorem key_derivation_variants_spec :
    (∀ (config : Config) (f : ConfigBase → String),
        config.duplicatedKey = some f → f config.toConfigBase ≠ "" →
        getDuplicatedKey config = f config.toConfigBase) ∧
    (∀ config : Config, config.duplicatedKey = none →
        getDuplicatedKey config = toLowerStr config.method ++ config.url) ∧
    (∀ (config : Config) (f : ConfigBase → String),
        config.duplicatedKey = some f → f config.toConfigBase = "" →
        getDuplicatedKey config = toLowerStr config.method ++ config.url) ∧
    getDuplicatedKey { method := "GET", url := "/a" } = "get/a" ∧
    (∀ (config : Config) (f : ConfigBase → String),
        config.duplicatedKey = some f →
        TSVariant.getDuplicatedKey config = f config.toConfigBase) ∧
    (∀ options : Options, options.duplicatedKey = none →
        TSVariant.getDuplicatedKey (TSVariant.mergeConfig options) =
          toLowerStr (TSVariant.mergeConfig options).method
            ++ (TSVariant.mergeConfig options).url) := by
  refine ⟨?_, ?_, ?_, by rfl, ?_, ?_⟩
  · intro config f hf hne
    simp [getDuplicatedKey, hf, hne]
  · intro config hf
    simp [getDuplicatedKey, hf]
  · intro config f hf he
    simp [getDuplicatedKey, hf, he]
  · intro config f hf
    simp [TSVariant.getDuplicatedKey, hf]
  · intro options hf
    simp [TSVariant.getDuplicatedKey, TSVariant.mergeConfig,
      TSVariant.defaultDuplicatedKey, hf]

/-- Witness for key_derivation_variants_spec at concrete descriptors. -/
theorem key_derivation_variants_spec_witness :
    getDuplicatedKey
        { method := "GET", url := "/a", duplicatedKey := some (fun _ => "k1") } = "k1" ∧
    getDuplicatedKey { method := "GET", url := "/a" } = "get/a" ∧
    TSVariant.getDuplicatedKey (TSVariant.mergeConfig { url := some "/a" }) =
      toLowerStr (TSVariant.mergeConfig { url := some "/a" }).method
        ++ (TSVariant.mergeConfig { url := some "/a" }).url := by
  refine ⟨?_, ?_, ?_⟩
  · exact key_derivation_variants_spec.1 _ (fun _ => "k1") rfl (by decide)
  · exact key_derivation_variants_spec.2.2.2.1
  · exact key_derivation_variants_spec.2.2.2.2.2 { url := some "/a" } rfl

/-- C6: the delay attached to a reissue decision obeys the source law: a
function retryDelay is applied to the incremented counter (the 1-indexed
attempt number), a numeric retryDelay is multiplied by that attempt number
when retryDelayRise is set and by 1 otherwise; with retryDelay 100 this gives
100 * k before attempt k when rising, and a constant 100 otherwise. -/
theorem retry_delay_law (config : Config) (e : ε) (c2 : Config) (d : Nat)
    (h : retryStep config e = RetryDecision.reissue c2 d) :
    (∀ f, config.retryDelay = RetryDelay.fn f →
        d = f (config.__retryCount.getD 0 + 1)) ∧
    (∀ n, config.retryDelay = RetryDelay.num n →
        d = n * (if config.retryDelayRise then config.__retryCount.getD 0 + 1 else 1)) ∧
    (config.retryDelay = RetryDelay.num 100 → config.retryDelayRise = true →
        d = 100 * (config.__retryCount.getD 0 + 1)) ∧
    (config.retryDelay = RetryDelay.num 100 → config.retryDelayRise = false →
        d = 100) := by
  have hd : d = computeDelay config (config.__retryCount.getD 0 + 1) := by
    by_cases hge : config.retry ≤ config.__retryCount.getD 0
    · rw [retryStep_of_ge e hge] at h
      exact absurd h (by simp)
    · rw [retryStep_of_lt e (by omega)] at h
      simp only [RetryDecision.reissue.injEq] at h
      exact h.2.symm
  subst hd
  refine ⟨?_, ?_, ?_, ?_⟩
  · intro f hf
    simp [computeDelay, hf]
  · intro n hn
    simp [computeDelay, hn]
  · intro hn hr
    simp [computeDelay, hn, hr]
  · intro hn hr
    simp [computeDelay, hn, hr]

/-- Witness for retry_delay_law: before attempt 2 with retryDelay 100 the
rising delay is 200 and the non-rising delay is 100. -/
theorem retry_delay_law_witness : (200 : Nat) = 100 * 2 ∧ (100 : Nat) = 100 := by
  constructor
  · exact (retry_delay_law (ε := Nat)
      ({ retry := 3, __retryCount := some 1, retryDelay := RetryDelay.num 100 } : Config)
      0 _ _ rfl).2.2.1 rfl rfl
  · exact (retry_delay_law (ε := Nat)
      ({ retry := 3, __retryCount := some 1, retryDelay := RetryDelay.num 100,
         retryDelayRise := false } : Config)
      0 _ _ rfl).2.2.2 rfl rfl

/-- C7: an axios cancellation reaching the response interceptor is settled at
once as a Cancel-kind rejection, with the state untouched, and is never handed
to the retry scheduler; in the dedup scenario the superseded request settles
as canceled carrying the payload whose type is ERROR_TYPE.Cancel, and no
further transport dispatch happens for it regardless of its retry budget. -/
theorem cancel_propagates_without_retry :
    (∀ (st : MState ρ) (m : CancelErr),
        interceptorsResponseError (ε := ε) st (AxiosError.cancel m) =
          (st, ErrorAction.rejectCancel m)) ∧
    (∀ (st0 : MState ρ) (c1 c2 : Config) (r1 r2 : ρ),
        getDuplicatedKey c2 = getDuplicatedKey c1 →
        c1.cancelDuplicated = true → c2.cancelDuplicated = true →
        mlookup (getDuplicatedKey c1) st0.requestMap = none →
        (∀ p ∈ st0.cancelled, p.1 < st0.nextToken) →
        (backToBack (ε := ε) st0 c1 c2 r1 r2).1 =
            Outcome.canceled requestCanceledError ∧
          requestCanceledError.type = ERROR_TYPE_Cancel ∧
          (backToBack (ε := ε) st0 c1 c2 r1 r2).2.2.transportCalls =
            st0.transportCalls + 2) := by
  refine ⟨fun st m => rfl, fun st0 c1 c2 r1 r2 hkey h1 h2 habs hfresh => ?_⟩
  obtain ⟨ho1, -, htc⟩ := backToBack_true_spec st0 c1 c2 r1 r2 hkey h1 h2 habs hfresh
  exact ⟨ho1, rfl, htc⟩

/-- Witness for cancel_propagates_without_retry: the superseded request of
the concrete scenario has retry budget 5 and still settles as canceled after
exactly two dispatches. -/
theorem cancel_propagates_without_retry_witness :
    interceptorsResponseError (ρ := Nat) (ε := Nat) {}
        (AxiosError.cancel requestCanceledError) =
      ({}, ErrorAction.rejectCancel requestCanceledError) ∧
    (backToBack (ε := Nat) ({} : MState Nat) wDup wDup 1 2).1 =
      Outcome.canceled requestCanceledError ∧
    (backToBack (ε := Nat) ({} : MState Nat) wDup wDup 1 2).2.2.transportCalls
      = 0 + 2 := by
  have h := (cancel_propagates_without_retry (ρ := Nat) (ε := Nat)).2
    {} wDup wDup 1 2 rfl rfl rfl rfl (fun p hp => absurd hp (List.not_mem_nil p))
  exact ⟨(cancel_propagates_without_retry (ρ := Nat) (ε := Nat)).1 {}
    requestCanceledError, h.1, h.2.2⟩

/-- C8: the pending registry keeps at most one handle per key: registration
is a no-op whenever an entry exists for the key, supersession leaves the key
absent (under the registry invariant), and the no-duplicate-keys invariant is
preserved by the pre-request hook, by a full pipeline run, and by request. -/
theorem registry_at_most_one_handle :
    (∀ (config : Config) (st : MState ρ) (tok : Nat),
        mlookup (getDuplicatedKey config) st.requestMap = some tok →
        addReq config st = st) ∧
    (∀ (config : Config) (st : MState ρ),
        config.cancelDuplicated = true → KeysNodup st.requestMap →
        mlookup (getDuplicatedKey config) (removeReq config st).requestMap = none) ∧
    (∀ (config : Config) (st : MState ρ),
        KeysNodup st.requestMap → KeysNodup (requestHook config st).requestMap) ∧
    (∀ (transport : Nat → Config → TResult ρ ε) (st : MState ρ) (config : Config),
        KeysNodup st.requestMap →
        KeysNodup ((runInstance transport st config).1.requestMap)) ∧
    (∀ (transport : Nat → Config → TResult ρ ε) (st : MState ρ) (options : Options),
        KeysNodup st.requestMap →
        KeysNodup ((request transport st options).1.requestMap)) := by
  refine ⟨fun config st tok h => addReq_present h,
    fun config st hf hnd => ?_,
    fun config st h => requestHook_keysNodup config h,
    fun transport st config h => runInstance_keysNodup transport _ st config rfl h,
    fun transport st options h => ?_⟩
  · cases hl : mlookup (getDuplicatedKey config) st.requestMap with
    | none =>
        rw [removeReq_absent hl]
        exact hl
    | some tok =>
        rw [removeReq_present hf hl]
        exact mlookup_merase_self hnd
  · by_cases hcache : (mergeConfig options).cache
    · cases hh : getResponseCache (mergeConfig options) st with
      | none =>
          have hrun : request transport st options =
              runInstance transport st (mergeConfig options) := by
            simp [request, hcache, hh]
          rw [hrun]
          exact runInstance_keysNodup transport _ st _ rfl h
      | some r =>
          have hrun : request transport st options = (st, Outcome.resolved r) := by
            simp [request, hcache, hh]
          rw [hrun]
          exact h
    · have hrun : request transport st options =
          runInstance transport st (mergeConfig options) := by
        simp [request, hcache]
      rw [hrun]
      exact runInstance_keysNodup transport _ st _ rfl h

/-- Witness for registry_at_most_one_handle at concrete states. -/
theorem registry_at_most_one_handle_witness :
    addReq wDup ({ requestMap := [("get/a", 0)], nextToken := 1 } : MState Nat) =
      { requestMap := [("get/a", 0)], nextToken := 1 } ∧
    KeysNodup ((request (ε := Nat) wFailT ({} : MState Nat)
      { retry := some 1 }).1.requestMap) := by
  constructor
  · exact (registry_at_most_one_handle (ρ := Nat) (ε := Nat)).1 wDup _ 0 (by rfl)
  · exact (registry_at_most_one_handle (ρ := Nat) (ε := Nat)).2.2.2.2 wFailT {}
      { retry := some 1 } (by exact List.nodup_nil)

/-- C9: a response is stored only for descriptors with cache = true (the
store is a no-op otherwise), a lookup is attempted only when the current
request sets cache = true (otherwise request goes straight to the pipeline),
and a pipeline run for a descriptor with cache = false neither reads the
cache (its entire result is the same for any cache contents) nor writes it
(the cache component comes back unchanged). -/
theorem cache_isolation_flag_false :
    (∀ (config : Config) (r : ρ) (st : MState ρ), config.cache = false →
        setResponseCache config r st = st) ∧
    (∀ (transport : Nat → Config → TResult ρ ε) (st : MState ρ) (options : Options),
        (mergeConfig options).cache = false →
        request transport st options = runInstance transport st (mergeConfig options)) ∧
    (∀ (transport : Nat → Config → TResult ρ ε) (st : MState ρ) (config : Config)
        (mm : List (String × ρ)), config.cache = false →
        runInstance transport { st with responseCacheMap := mm } config =
          ({ (runInstance transport st config).1 with responseCacheMap := mm },
           (runInstance transport st config).2)) ∧
    (∀ (transport : Nat → Config → TResult ρ ε) (st : MState ρ) (config : Config),
        config.cache = false →
        (runInstance transport st config).1.responseCacheMap = st.responseCacheMap) := by
  refine ⟨fun config r st h => setResponseCache_not_cache r st h,
    fun transport st options h => by simp [request, h],
    fun transport st config mm h => runInstance_cache_false transport _ st config rfl h mm,
    fun transport st config h => ?_⟩
  have h4 : runInstance transport st config =
      ({ (runInstance transport st config).1 with
          responseCacheMap := st.responseCacheMap },
       (runInstance transport st config).2) :=
    runInstance_cache_false transport _ st config rfl h st.responseCacheMap
  conv_lhs => rw [h4]

/-- Witness for cache_isolation_flag_false at concrete states. -/
theorem cache_isolation_flag_false_witness :
    setResponseCache wDup (7 : Nat) ({} : MState Nat) = {} ∧
    (runInstance (ε := Nat) wFailT
        ({ responseCacheMap := [("x", 9)] } : MState Nat) wDup).1.responseCacheMap
      = [("x", 9)] := by
  constructor
  · exact (cache_isolation_flag_false (ρ := Nat) (ε := Nat)).1 wDup 7 {} rfl
  · exact (cache_isolation_flag_false (ρ := Nat) (ε := Nat)).2.2.2 wFailT _ wDup rfl

/-- C10: in the JavaScript variant, a reissue decision sets the descriptor
timeout to 15000 exactly when the incremented counter equals retry (the final
permitted attempt) and leaves it at its previous value on every other
attempt; the counter itself is incremented by one. -/
theorem final_retry_sets_timeout (config : Config) (e : ε) (c2 : Config) (d : Nat)
    (h : retryStep config e = RetryDecision.reissue c2 d) :
    c2.timeout = (if config.__retryCount.getD 0 + 1 = config.retry
        then (15000 : Int) else config.timeout) ∧
    c2.__retryCount = some (config.__retryCount.getD 0 + 1) := by
  by_cases hge : config.retry ≤ config.__retryCount.getD 0
  · rw [retryStep_of_ge e hge] at h
    exact absurd h (by simp)
  · rw [retryStep_of_lt e (by omega)] at h
    simp only [RetryDecision.reissue.injEq] at h
    rw [← h.1]
    exact ⟨rfl, rfl⟩

/-- Witness for final_retry_sets_timeout: the final permitted attempt gets
timeout 15000, an earlier attempt keeps the default -1. -/
theorem final_retry_sets_timeout_witness :
    (({ retry := 2, __retryCount := some 2, timeout := 15000 } : Config).timeout =
      if (1 : Nat) + 1 = 2 then (15000 : Int) else (-1 : Int)) ∧
    (({ retry := 3, __retryCount := some 2 } : Config).timeout =
      if (1 : Nat) + 1 = 3 then (15000 : Int) else (-1 : Int)) := by
  constructor
  · exact (final_retry_sets_timeout (ε := Nat)
      ({ retry := 2, __retryCount := some 1 } : Config) 0 _ _ rfl).1
  · exact (final_retry_sets_timeout (ε := Nat)
      ({ retry := 3, __retryCount := some 1 } : Config) 0 _ _ rfl).1

end AxiosEnhance
